import Mathlib

/-!
Verification of the relative-pose residual diagnostic in
`src/experiments/g2o-test.cpp`.  The pose algebra of the external geometry
library (gtsam) is modelled from the specification: a pose is a rigid
transform (rotation matrix + translation vector), `between(A, B) = A⁻¹ · B`,
the translation residual is the Euclidean norm of the translation part and
the rotation residual is the norm of the Euler-angle vector extracted from the
rotation part.  Exact arithmetic over ℚ replaces IEEE doubles for the group
algebra; the norm layer lives in ℝ.
-/

namespace G2oDiag

/-- Modelled from the spec: a 3-component vector of the external geometry
library, used for translations and Euler-angle vectors. -/
structure V3 (α : Type) where
  x : α
  y : α
  z : α
deriving DecidableEq

/-- Modelled from the spec: a 3 × 3 matrix of the external geometry library,
used for the rotation part of a rigid transform. -/
structure M3 (α : Type) where
  a00 : α
  a01 : α
  a02 : α
  a10 : α
  a11 : α
  a12 : α
  a20 : α
  a21 : α
  a22 : α
deriving DecidableEq

variable {α : Type} [CommRing α]

/-- Zero vector. -/
def V3.zero : V3 α := ⟨0, 0, 0⟩

/-- Componentwise vector addition. -/
def V3.add (u v : V3 α) : V3 α := ⟨u.x + v.x, u.y + v.y, u.z + v.z⟩

/-- Componentwise vector negation. -/
def V3.neg (v : V3 α) : V3 α := ⟨-v.x, -v.y, -v.z⟩

/-- Squared Euclidean norm of a vector. -/
def V3.sq (v : V3 α) : α := v.x * v.x + v.y * v.y + v.z * v.z

/-- Identity matrix. -/
def M3.id : M3 α := ⟨1, 0, 0, 0, 1, 0, 0, 0, 1⟩

/-- Matrix product. -/
def M3.mul (A B : M3 α) : M3 α :=
  ⟨A.a00 * B.a00 + A.a01 * B.a10 + A.a02 * B.a20,
   A.a00 * B.a01 + A.a01 * B.a11 + A.a02 * B.a21,
   A.a00 * B.a02 + A.a01 * B.a12 + A.a02 * B.a22,
   A.a10 * B.a00 + A.a11 * B.a10 + A.a12 * B.a20,
   A.a10 * B.a01 + A.a11 * B.a11 + A.a12 * B.a21,
   A.a10 * B.a02 + A.a11 * B.a12 + A.a12 * B.a22,
   A.a20 * B.a00 + A.a21 * B.a10 + A.a22 * B.a20,
   A.a20 * B.a01 + A.a21 * B.a11 + A.a22 * B.a21,
   A.a20 * B.a02 + A.a21 * B.a12 + A.a22 * B.a22⟩

/-- Matrix transpose. -/
def M3.transpose (A : M3 α) : M3 α :=
  ⟨A.a00, A.a10, A.a20, A.a01, A.a11, A.a21, A.a02, A.a12, A.a22⟩

/-- Matrix-vector product. -/
def M3.mulV (A : M3 α) (v : V3 α) : V3 α :=
  ⟨A.a00 * v.x + A.a01 * v.y + A.a02 * v.z,
   A.a10 * v.x + A.a11 * v.y + A.a12 * v.z,
   A.a20 * v.x + A.a21 * v.y + A.a22 * v.z⟩

/-- Determinant of a 3 × 3 matrix. -/
def M3.det (A : M3 α) : α :=
  A.a00 * (A.a11 * A.a22 - A.a12 * A.a21)
    - A.a01 * (A.a10 * A.a22 - A.a12 * A.a20)
    + A.a02 * (A.a10 * A.a21 - A.a11 * A.a20)

/-- Rotation matrices are the orthogonal matrices of determinant one; this is
the type invariant of the external library's rotation type. -/
def WFrot (R : M3 α) : Prop :=
  R.mul R.transpose = M3.id ∧ R.transpose.mul R = M3.id ∧ R.det = 1

instance (R : M3 ℚ) : Decidable (WFrot R) := by
  unfold WFrot
  infer_instance

/-- Modelled from the spec: gtsam::Pose3, a 3D rigid transform consisting of a
rotation and a translation (spec section 3, "Pose"). -/
structure Pose3 where
  R : M3 ℚ
  t : V3 ℚ
deriving DecidableEq

/-- Composition of rigid transforms: (R1, t1) ∘ (R2, t2) = (R1 R2, R1 t2 + t1). -/
def Pose3.compose (a b : Pose3) : Pose3 :=
  ⟨a.R.mul b.R, (a.R.mulV b.t).add a.t⟩

/-- Inverse of a rigid transform: (R, t)⁻¹ = (Rᵀ, -(Rᵀ t)). -/
def Pose3.inverse (p : Pose3) : Pose3 :=
  ⟨p.R.transpose, (p.R.transpose.mulV p.t).neg⟩

/-- Modelled from the spec: `between(A, B) = A⁻¹ · B` (spec glossary). -/
def Pose3.between (a b : Pose3) : Pose3 :=
  a.inverse.compose b

/-- Identity transform. -/
def Pose3.identity : Pose3 := ⟨M3.id, V3.zero⟩

/-- Translation part of a pose (gtsam `translation()`). -/
def Pose3.translation (p : Pose3) : V3 ℚ := p.t

/-- Rotation part of a pose (gtsam `rotation()`). -/
def Pose3.rotation (p : Pose3) : M3 ℚ := p.R

/-- Well-formedness of a pose: its rotation part is a genuine rotation. -/
def Pose3.WF (p : Pose3) : Prop := WFrot p.R

instance (p : Pose3) : Decidable p.WF := by
  unfold Pose3.WF
  infer_instance

/-- Pure-translation pose, used for concrete scenarios. -/
def pTx (a : ℚ) : Pose3 := ⟨M3.id, ⟨a, 0, 0⟩⟩

/-- Failure condition of the diagnostic, named as in the spec (section 7):
a constraint references a pose key absent from the estimate set.  In the code
this is the exception thrown by `initial.at<gtsam::Pose3>(key)`. -/
inductive DiagError
  | MissingPoseKey (k : Nat)
deriving DecidableEq

/-- Relative Constraint of the spec (section 3): two pose keys and a measured
relative transform, as carried by `gtsam::BetweenFactor<gtsam::Pose3>`. -/
structure Constraint where
  key1 : Nat
  key2 : Nat
  measured : Pose3
deriving DecidableEq

/-- Modelled from the spec: `gtsam::Values::at`, looking a pose up by integer
key in the Pose Estimate Set (`initial.at<gtsam::Pose3>(key)`, lines 33-34). -/
def atKey : List (Nat × Pose3) → Nat → Option Pose3
  | [], _ => none
  | (k, p) :: rest, key => if k = key then some p else atKey rest key

/-- Lines 28-41 of g2o-test.cpp: retrieve both endpoint poses (failing like
the uncaught gtsam exception when a key is absent, key1 looked up first),
compute `predicted = pose1.between(pose2)`, `predicted_v2 =
pose2.between(pose1)`, and return `diff = measured.between(predicted)` and
`diff_v2 = measured.between(predicted_v2)`. -/
def computeDiffs (c : Constraint) (vals : List (Nat × Pose3)) :
    Except DiagError (Pose3 × Pose3) :=
  match atKey vals c.key1 with
  | none => Except.error (DiagError.MissingPoseKey c.key1)
  | some pose1 =>
    match atKey vals c.key2 with
    | none => Except.error (DiagError.MissingPoseKey c.key2)
    | some pose2 =>
      let predicted := pose1.between pose2
      let predicted_v2 := pose2.between pose1
      Except.ok (c.measured.between predicted, c.measured.between predicted_v2)

/-- A graph factor: either a `BetweenFactor<gtsam::Pose3>` carrying a relative
constraint, or a factor of any other kind (tagged, with its own key list, the
key list modelling `NonlinearFactor::keys`). -/
inductive Factor
  | betweenPose3 (c : Constraint)
  | other (tag : Nat) (ks : List Nat)
deriving DecidableEq

/-- Keys referenced by a factor. -/
def Factor.keys : Factor → List Nat
  | .betweenPose3 c => [c.key1, c.key2]
  | .other _ ks => ks

/-- Whether a factor is a `BetweenFactor<gtsam::Pose3>`. -/
def Factor.isBetweenP3 : Factor → Bool
  | .betweenPose3 _ => true
  | .other _ _ => false

/-- Modelled from the spec: evaluating `factor->error(initial)` (line 21) reads
the factor's keys from the estimate set and fails like the uncaught gtsam
exception if one is absent; the numeric error value itself belongs to the
external library (spec section 6) and is only printed, so it is not modelled. -/
def factorErrorAccess (vals : List (Nat × Pose3)) : List Nat → Except DiagError Unit
  | [] => Except.ok ()
  | k :: ks =>
    match atKey vals k with
    | none => Except.error (DiagError.MissingPoseKey k)
    | some _ => factorErrorAccess vals ks

/-- Per-factor report printed by the loop: either the not-a-BetweenFactor
message (line 47) or the two difference poses whose norms are printed
(lines 42-44). -/
inductive Report
  | notApplicable (i : Nat)
  | betweenReport (i : Nat) (key1 key2 : Nat) (diff diff_v2 : Pose3)
deriving DecidableEq

/-- Factor index a report was produced for. -/
def Report.idx : Report → Nat
  | .notApplicable i => i
  | .betweenReport i _ _ _ _ => i

/-- Body of the loop iteration for factor `i` (lines 20-48): evaluate the
factor's error, then, if the factor is a between-factor, compute the
difference poses, else report the factor as not applicable.  The estimate set
and the factor are returned alongside, mirroring that the body only reads
them. -/
def diagStep (vals : List (Nat × Pose3)) (i : Nat) (f : Factor) :
    List (Nat × Pose3) × Factor × Except DiagError Report :=
  match factorErrorAccess vals f.keys with
  | Except.error e => (vals, f, Except.error e)
  | Except.ok _ =>
    match f with
    | Factor.other tag ks => (vals, Factor.other tag ks, Except.ok (Report.notApplicable i))
    | Factor.betweenPose3 c =>
      match computeDiffs c vals with
      | Except.error e => (vals, Factor.betweenPose3 c, Except.error e)
      | Except.ok (d, d2) =>
        (vals, Factor.betweenPose3 c, Except.ok (Report.betweenReport i c.key1 c.key2 d d2))

/-- The per-factor loop of lines 19-49, threading the estimate set and
accumulating the visited factors.  An error aborts the loop (the exception is
not caught in `main`): the remaining factors are returned untouched and no
further report is produced. -/
def diagLoop (vals : List (Nat × Pose3)) (i : Nat) :
    List Factor → List (Nat × Pose3) × List Factor × Except DiagError (List Report)
  | [] => (vals, [], Except.ok [])
  | f :: rest =>
    match diagStep vals i f with
    | (v1, f1, Except.error e) => (v1, f1 :: rest, Except.error e)
    | (v1, f1, Except.ok rep) =>
      match diagLoop v1 (i + 1) rest with
      | (v2, rest2, Except.error e) => (v2, f1 :: rest2, Except.error e)
      | (v2, rest2, Except.ok rs) => (v2, f1 :: rest2, Except.ok (rep :: rs))

/-- All keys of a factor are present in the estimate set. -/
def keysPresent (vals : List (Nat × Pose3)) (f : Factor) : Bool :=
  f.keys.all fun k => (atKey vals k).isSome

/-- Entrywise rational-to-real cast of a matrix. -/
def castM (A : M3 ℚ) : M3 ℝ :=
  ⟨(A.a00 : ℝ), (A.a01 : ℝ), (A.a02 : ℝ),
   (A.a10 : ℝ), (A.a11 : ℝ), (A.a12 : ℝ),
   (A.a20 : ℝ), (A.a21 : ℝ), (A.a22 : ℝ)⟩

/-- Modelled from the spec: the C library's two-argument arctangent, used by
the external library's Euler-angle extraction (idealized over ℝ, so no signed
zeros). -/
noncomputable def atan2 (y x : ℝ) : ℝ :=
  if 0 < x then Real.arctan (y / x)
  else if x < 0 then
    if 0 ≤ y then Real.arctan (y / x) + Real.pi
    else Real.arctan (y / x) - Real.pi
  else
    if 0 < y then Real.pi / 2
    else if y < 0 then -(Real.pi / 2)
    else 0

/-- Rotation about the x axis (gtsam `Rot3::Rx`). -/
noncomputable def RxM (t : ℝ) : M3 ℝ :=
  ⟨1, 0, 0,
   0, Real.cos t, -Real.sin t,
   0, Real.sin t, Real.cos t⟩

/-- Rotation about the y axis (gtsam `Rot3::Ry`). -/
noncomputable def RyM (t : ℝ) : M3 ℝ :=
  ⟨Real.cos t, 0, Real.sin t,
   0, 1, 0,
   -Real.sin t, 0, Real.cos t⟩

/-- First angle of the RQ decomposition used by gtsam `Rot3::xyz`:
`x = -atan2(-A(2,1), A(2,2))`. -/
noncomputable def rqX (A : M3 ℝ) : ℝ := -atan2 (-A.a21) A.a22

/-- Intermediate matrix `B = A * Rx(-x)` of the RQ decomposition. -/
noncomputable def rqB (A : M3 ℝ) : M3 ℝ := A.mul (RxM (-rqX A))

/-- Second angle of the RQ decomposition: `y = -atan2(B(2,0), B(2,2))`. -/
noncomputable def rqY (A : M3 ℝ) : ℝ := -atan2 (rqB A).a20 (rqB A).a22

/-- Intermediate matrix `C = B * Ry(-y)` of the RQ decomposition. -/
noncomputable def rqC (A : M3 ℝ) : M3 ℝ := (rqB A).mul (RyM (-rqY A))

/-- Third angle of the RQ decomposition: `z = -atan2(-C(1,0), C(1,1))`. -/
noncomputable def rqZ (A : M3 ℝ) : ℝ := -atan2 (-(rqC A).a10) (rqC A).a11

/-- Modelled from the spec: the Euler-angle vector of a rotation matrix, as
returned by gtsam `Rot3::xyz` via RQ decomposition (the "rotation-to-vector"
operation of spec section 6). -/
noncomputable def xyzAngles (A : M3 ℝ) : ℝ × ℝ × ℝ := (rqX A, rqY A, rqZ A)

/-- Translation residual norm printed by lines 43-44:
`diff.translation().norm()`. -/
noncomputable def transNorm (p : Pose3) : ℝ :=
  Real.sqrt ((p.translation.sq : ℚ) : ℝ)

/-- Rotation residual norm printed by lines 43-44:
`diff.rotation().xyz().norm()`. -/
noncomputable def rotXyzNorm (p : Pose3) : ℝ :=
  Real.sqrt ((xyzAngles (castM p.rotation)).1 ^ 2
    + (xyzAngles (castM p.rotation)).2.1 ^ 2
    + (xyzAngles (castM p.rotation)).2.2 ^ 2)

/-- Residual of the spec (section 3): the two translation-norm/rotation-norm
pairs, forward (`diff`) and backward (`diff_v2`). -/
structure Residual where
  transF : ℝ
  rotF : ℝ
  transB : ℝ
  rotB : ℝ

/-- Spec operation `computeResidual(constraint, poseEstimates)` (section 4.1,
lines 28-44 of g2o-test.cpp): the difference poses of `computeDiffs` with
their translation and rotation norms extracted. -/
noncomputable def computeResidual (c : Constraint) (vals : List (Nat × Pose3)) :
    Except DiagError Residual :=
  (computeDiffs c vals).map fun d =>
    ⟨transNorm d.1, rotXyzNorm d.1, transNorm d.2, rotXyzNorm d.2⟩

/-- Exchange of the forward and backward residual pairs. -/
def Residual.swap (r : Residual) : Residual :=
  ⟨r.transB, r.rotB, r.transF, r.rotF⟩

/-- Line 11 of g2o-test.cpp: `argc > 1 ? argv[1] : "data/2d/2d-1.g2o"`,
with `argv` the full argument vector including the program name. -/
def filePathOfArgv (argv : List String) : String :=
  match argv with
  | _ :: a :: _ => a
  | _ => "data/2d/2d-1.g2o"

/-- Line 9 of g2o-test.cpp: `bool is3D = true;`, never reassigned. -/
def is3DFlag : Bool := true

/-- Line 12 of g2o-test.cpp: the pair of arguments passed to `readG2o`. -/
def readG2oCall (argv : List String) : String × Bool :=
  (filePathOfArgv argv, is3DFlag)

deriving instance DecidableEq for Except

theorem M3.mul_assoc (A B C : M3 α) : (A.mul B).mul C = A.mul (B.mul C) := by
  obtain ⟨a00, a01, a02, a10, a11, a12, a20, a21, a22⟩ := A
  obtain ⟨b00, b01, b02, b10, b11, b12, b20, b21, b22⟩ := B
  obtain ⟨c00, c01, c02, c10, c11, c12, c20, c21, c22⟩ := C
  simp only [M3.mul, M3.mk.injEq]
  refine ⟨?_, ?_, ?_, ?_, ?_, ?_, ?_, ?_, ?_⟩ <;> ring

theorem M3.mul_id (A : M3 α) : A.mul M3.id = A := by
  obtain ⟨a00, a01, a02, a10, a11, a12, a20, a21, a22⟩ := A
  simp only [M3.mul, M3.id, M3.mk.injEq]
  refine ⟨?_, ?_, ?_, ?_, ?_, ?_, ?_, ?_, ?_⟩ <;> ring

theorem M3.id_mul (A : M3 α) : M3.id.mul A = A := by
  obtain ⟨a00, a01, a02, a10, a11, a12, a20, a21, a22⟩ := A
  simp only [M3.mul, M3.id, M3.mk.injEq]
  refine ⟨?_, ?_, ?_, ?_, ?_, ?_, ?_, ?_, ?_⟩ <;> ring

theorem M3.transpose_mul (A B : M3 α) :
    (A.mul B).transpose = B.transpose.mul A.transpose := by
  obtain ⟨a00, a01, a02, a10, a11, a12, a20, a21, a22⟩ := A
  obtain ⟨b00, b01, b02, b10, b11, b12, b20, b21, b22⟩ := B
  simp only [M3.mul, M3.transpose, M3.mk.injEq]
  refine ⟨?_, ?_, ?_, ?_, ?_, ?_, ?_, ?_, ?_⟩ <;> ring

theorem M3.transpose_transpose {β : Type} (A : M3 β) : A.transpose.transpose = A := by
  obtain ⟨a00, a01, a02, a10, a11, a12, a20, a21, a22⟩ := A
  simp only [M3.transpose]

theorem M3.transpose_id : (M3.id : M3 α).transpose = M3.id := by
  simp only [M3.transpose, M3.id]

theorem M3.mulV_add (A : M3 α) (u v : V3 α) :
    A.mulV (u.add v) = (A.mulV u).add (A.mulV v) := by
  obtain ⟨a00, a01, a02, a10, a11, a12, a20, a21, a22⟩ := A
  obtain ⟨ux, uy, uz⟩ := u
  obtain ⟨vx, vy, vz⟩ := v
  simp only [M3.mulV, V3.add, V3.mk.injEq]
  refine ⟨?_, ?_, ?_⟩ <;> ring

theorem M3.mulV_neg (A : M3 α) (v : V3 α) : A.mulV v.neg = (A.mulV v).neg := by
  obtain ⟨a00, a01, a02, a10, a11, a12, a20, a21, a22⟩ := A
  obtain ⟨vx, vy, vz⟩ := v
  simp only [M3.mulV, V3.neg, V3.mk.injEq]
  refine ⟨?_, ?_, ?_⟩ <;> ring

theorem M3.mulV_zero (A : M3 α) : A.mulV V3.zero = V3.zero := by
  obtain ⟨a00, a01, a02, a10, a11, a12, a20, a21, a22⟩ := A
  simp only [M3.mulV, V3.zero, V3.mk.injEq]
  refine ⟨?_, ?_, ?_⟩ <;> ring

theorem V3.add_zero (v : V3 α) : v.add V3.zero = v := by
  obtain ⟨vx, vy, vz⟩ := v
  simp only [V3.add, V3.zero, V3.mk.injEq]
  refine ⟨?_, ?_, ?_⟩ <;> ring

theorem V3.zero_add (v : V3 α) : V3.zero.add v = v := by
  obtain ⟨vx, vy, vz⟩ := v
  simp only [V3.add, V3.zero, V3.mk.injEq]
  refine ⟨?_, ?_, ?_⟩ <;> ring

theorem V3.add_comm (u v : V3 α) : u.add v = v.add u := by
  obtain ⟨ux, uy, uz⟩ := u
  obtain ⟨vx, vy, vz⟩ := v
  simp only [V3.add, V3.mk.injEq]
  refine ⟨?_, ?_, ?_⟩ <;> ring

theorem V3.add_neg (v : V3 α) : v.add v.neg = V3.zero := by
  obtain ⟨vx, vy, vz⟩ := v
  simp only [V3.add, V3.neg, V3.zero, V3.mk.injEq]
  refine ⟨?_, ?_, ?_⟩ <;> ring

theorem V3.neg_add_self (v : V3 α) : v.neg.add v = V3.zero := by
  obtain ⟨vx, vy, vz⟩ := v
  simp only [V3.add, V3.neg, V3.zero, V3.mk.injEq]
  refine ⟨?_, ?_, ?_⟩ <;> ring

theorem V3.neg_neg (v : V3 α) : v.neg.neg = v := by
  obtain ⟨vx, vy, vz⟩ := v
  simp only [V3.neg, V3.mk.injEq]
  refine ⟨?_, ?_, ?_⟩ <;> ring

theorem V3.neg_add (u v : V3 α) : (u.add v).neg = u.neg.add v.neg := by
  obtain ⟨ux, uy, uz⟩ := u
  obtain ⟨vx, vy, vz⟩ := v
  simp only [V3.add, V3.neg, V3.mk.injEq]
  refine ⟨?_, ?_, ?_⟩ <;> ring


theorem M3.det_mul (A B : M3 α) : (A.mul B).det = A.det * B.det := by
  obtain ⟨a00, a01, a02, a10, a11, a12, a20, a21, a22⟩ := A
  obtain ⟨b00, b01, b02, b10, b11, b12, b20, b21, b22⟩ := B
  simp only [M3.mul, M3.det]
  ring

theorem M3.det_transpose (A : M3 α) : A.transpose.det = A.det := by
  obtain ⟨a00, a01, a02, a10, a11, a12, a20, a21, a22⟩ := A
  simp only [M3.transpose, M3.det]
  ring

theorem M3.det_id : (M3.id : M3 α).det = 1 := by
  simp only [M3.id, M3.det]
  ring

theorem M3.mulV_mulV (A B : M3 α) (v : V3 α) :
    A.mulV (B.mulV v) = (A.mul B).mulV v := by
  obtain ⟨a00, a01, a02, a10, a11, a12, a20, a21, a22⟩ := A
  obtain ⟨b00, b01, b02, b10, b11, b12, b20, b21, b22⟩ := B
  obtain ⟨vx, vy, vz⟩ := v
  simp only [M3.mul, M3.mulV, V3.mk.injEq]
  refine ⟨?_, ?_, ?_⟩ <;> ring

theorem M3.id_mulV (v : V3 α) : (M3.id : M3 α).mulV v = v := by
  obtain ⟨vx, vy, vz⟩ := v
  simp only [M3.id, M3.mulV, V3.mk.injEq]
  refine ⟨?_, ?_, ?_⟩ <;> ring

theorem M3.mulV_cancel {A B : M3 α} (h : A.mul B = M3.id) (v : V3 α) :
    A.mulV (B.mulV v) = v := by
  rw [M3.mulV_mulV, h, M3.id_mulV]

theorem WFrot.id : WFrot (M3.id : M3 α) := by
  refine ⟨?_, ?_, M3.det_id⟩ <;>
    simp only [M3.transpose_id, M3.mul_id, M3.id_mul]

theorem WFrot.transpose {A : M3 α} (h : WFrot A) : WFrot A.transpose := by
  obtain ⟨h1, h2, h3⟩ := h
  refine ⟨?_, ?_, ?_⟩
  · rw [M3.transpose_transpose]
    exact h2
  · rw [M3.transpose_transpose]
    exact h1
  · rw [M3.det_transpose]
    exact h3

theorem WFrot.mul {A B : M3 α} (hA : WFrot A) (hB : WFrot B) : WFrot (A.mul B) := by
  obtain ⟨hA1, hA2, hA3⟩ := hA
  obtain ⟨hB1, hB2, hB3⟩ := hB
  refine ⟨?_, ?_, ?_⟩
  · rw [M3.transpose_mul, M3.mul_assoc, ← M3.mul_assoc B, hB1, M3.id_mul, hA1]
  · rw [M3.transpose_mul, M3.mul_assoc, ← M3.mul_assoc A.transpose, hA2, M3.id_mul, hB2]
  · rw [M3.det_mul, hA3, hB3, one_mul]

theorem Pose3.compose_assoc (a b c : Pose3) :
    (a.compose b).compose c = a.compose (b.compose c) := by
  obtain ⟨Ra, ta⟩ := a
  obtain ⟨Rb, tb⟩ := b
  obtain ⟨Rc, tc⟩ := c
  obtain ⟨a00, a01, a02, a10, a11, a12, a20, a21, a22⟩ := Ra
  obtain ⟨b00, b01, b02, b10, b11, b12, b20, b21, b22⟩ := Rb
  obtain ⟨c00, c01, c02, c10, c11, c12, c20, c21, c22⟩ := Rc
  obtain ⟨ax, ay, az⟩ := ta
  obtain ⟨bx, by2, bz⟩ := tb
  obtain ⟨cx, cy, cz⟩ := tc
  simp only [Pose3.compose, M3.mul, M3.mulV, V3.add, Pose3.mk.injEq, M3.mk.injEq,
    V3.mk.injEq]
  refine ⟨⟨?_, ?_, ?_, ?_, ?_, ?_, ?_, ?_, ?_⟩, ?_, ?_, ?_⟩ <;> ring

theorem Pose3.id_compose (p : Pose3) : Pose3.identity.compose p = p := by
  obtain ⟨R, t⟩ := p
  simp only [Pose3.compose, Pose3.identity, M3.id_mul, M3.id_mulV]
  rw [V3.add_comm, V3.zero_add]

theorem Pose3.compose_id (p : Pose3) : p.compose Pose3.identity = p := by
  obtain ⟨R, t⟩ := p
  simp only [Pose3.compose, Pose3.identity, M3.mul_id, M3.mulV_zero, V3.zero_add]

theorem Pose3.inverse_compose_self {p : Pose3} (h : p.R.transpose.mul p.R = M3.id) :
    p.inverse.compose p = Pose3.identity := by
  obtain ⟨R, t⟩ := p
  simp only [Pose3.inverse, Pose3.compose, Pose3.identity, Pose3.mk.injEq] at h ⊢
  exact ⟨h, V3.add_neg _⟩

theorem Pose3.compose_inverse_self {p : Pose3} (h : p.R.mul p.R.transpose = M3.id) :
    p.compose p.inverse = Pose3.identity := by
  obtain ⟨R, t⟩ := p
  simp only [Pose3.inverse, Pose3.compose, Pose3.identity, Pose3.mk.injEq] at h ⊢
  refine ⟨h, ?_⟩
  rw [M3.mulV_neg, M3.mulV_cancel h, V3.neg_add_self]

theorem Pose3.between_self {p : Pose3} (h : p.R.transpose.mul p.R = M3.id) :
    p.between p = Pose3.identity := by
  rw [Pose3.between]
  exact Pose3.inverse_compose_self h

theorem Pose3.inverse_inverse {p : Pose3} (h : p.R.mul p.R.transpose = M3.id) :
    p.inverse.inverse = p := by
  obtain ⟨R, t⟩ := p
  simp only [Pose3.inverse, M3.transpose_transpose, Pose3.mk.injEq] at h ⊢
  rw [M3.mulV_neg, M3.mulV_cancel h, V3.neg_neg]
  exact ⟨trivial, rfl⟩

theorem Pose3.inverse_compose {a b : Pose3} (ha : a.R.transpose.mul a.R = M3.id) :
    (a.compose b).inverse = b.inverse.compose a.inverse := by
  obtain ⟨Ra, ta⟩ := a
  obtain ⟨Rb, tb⟩ := b
  simp only [Pose3.inverse, Pose3.compose, M3.transpose_mul, Pose3.mk.injEq] at ha ⊢
  rw [← M3.mulV_mulV, M3.mulV_add, M3.mulV_cancel ha, M3.mulV_add, V3.neg_add,
    M3.mulV_neg, V3.add_comm]
  exact ⟨trivial, rfl⟩

theorem atan2_eq_zero_iff (y x : ℝ) : atan2 y x = 0 ↔ y = 0 ∧ 0 ≤ x := by
  unfold atan2
  split_ifs with h1 h2 h3 h4 h5
  · rw [Real.arctan_eq_zero_iff, div_eq_zero_iff]
    constructor
    · rintro (hy | hx)
      · exact ⟨hy, le_of_lt h1⟩
      · exact absurd hx (ne_of_gt h1)
    · intro h
      exact Or.inl h.1
  · constructor
    · intro h
      have hb := Real.neg_pi_div_two_lt_arctan (y / x)
      have hp := Real.pi_pos
      linarith
    · rintro ⟨hy, hx⟩
      linarith
  · constructor
    · intro h
      have hb := Real.arctan_lt_pi_div_two (y / x)
      have hp := Real.pi_pos
      linarith
    · rintro ⟨hy, hx⟩
      linarith
  · constructor
    · intro h
      have hp := Real.pi_pos
      linarith
    · rintro ⟨hy, hx⟩
      linarith
  · constructor
    · intro h
      have hp := Real.pi_pos
      linarith
    · rintro ⟨hy, hx⟩
      linarith
  · constructor
    · intro _
      constructor
      · linarith [not_lt.mp h4, not_lt.mp h5]
      · linarith [not_lt.mp h1, not_lt.mp h2]
    · intro _
      rfl

theorem atan2_zero_one : atan2 0 1 = 0 :=
  (atan2_eq_zero_iff 0 1).mpr ⟨rfl, by norm_num⟩

theorem RxM_zero : RxM 0 = M3.id := by
  simp only [RxM, M3.id, Real.cos_zero, Real.sin_zero, neg_zero]

theorem RyM_zero : RyM 0 = M3.id := by
  simp only [RyM, M3.id, Real.cos_zero, Real.sin_zero, neg_zero]

theorem rqX_id : rqX (M3.id : M3 ℝ) = 0 := by
  unfold rqX
  show -atan2 (-(0 : ℝ)) 1 = 0
  rw [neg_zero, atan2_zero_one, neg_zero]

theorem rqB_id : rqB (M3.id : M3 ℝ) = M3.id := by
  rw [rqB, rqX_id, neg_zero, RxM_zero, M3.mul_id]

theorem rqY_id : rqY (M3.id : M3 ℝ) = 0 := by
  unfold rqY
  rw [rqB_id]
  show -atan2 (0 : ℝ) 1 = 0
  rw [atan2_zero_one, neg_zero]

theorem rqC_id : rqC (M3.id : M3 ℝ) = M3.id := by
  rw [rqC, rqB_id, rqY_id, neg_zero, RyM_zero, M3.mul_id]

theorem rqZ_id : rqZ (M3.id : M3 ℝ) = 0 := by
  unfold rqZ
  rw [rqC_id]
  show -atan2 (-(0 : ℝ)) 1 = 0
  rw [neg_zero, atan2_zero_one, neg_zero]

theorem xyzAngles_id : xyzAngles (M3.id : M3 ℝ) = (0, 0, 0) := by
  rw [xyzAngles, rqX_id, rqY_id, rqZ_id]

theorem castM_id : castM M3.id = (M3.id : M3 ℝ) := by
  simp only [castM, M3.id, Rat.cast_one, Rat.cast_zero]

theorem sq_one_of_nonneg {r : ℝ} (h : r * r = 1) (hr : 0 ≤ r) : r = 1 := by
  have h2 : (r - 1) * (r + 1) = 0 := by linear_combination h
  rcases mul_eq_zero.mp h2 with h3 | h3
  · linarith
  · linarith

/-- Injectivity of the Euler-angle extraction at the identity: a rotation
matrix (orthogonal, determinant one) whose RQ angles all vanish is the
identity matrix. -/
theorem eq_id_of_xyz_zero {A : M3 ℝ} (horth : A.mul A.transpose = M3.id)
    (hdet : A.det = 1) (hx : rqX A = 0) (hy : rqY A = 0) (hz : rqZ A = 0) :
    A = M3.id := by
  have hB : rqB A = A := by
    rw [rqB, hx, neg_zero, RxM_zero, M3.mul_id]
  have hC : rqC A = A := by
    rw [rqC, hB, hy, neg_zero, RyM_zero, M3.mul_id]
  obtain ⟨a00, a01, a02, a10, a11, a12, a20, a21, a22⟩ := A
  simp only [rqX] at hx
  simp only [rqY, hB] at hy
  simp only [rqZ, hC] at hz
  obtain ⟨h21, h22⟩ := (atan2_eq_zero_iff _ _).mp (neg_eq_zero.mp hx)
  replace h21 : a21 = 0 := neg_eq_zero.mp h21
  obtain ⟨h20, _⟩ := (atan2_eq_zero_iff _ _).mp (neg_eq_zero.mp hy)
  obtain ⟨h10, h11⟩ := (atan2_eq_zero_iff _ _).mp (neg_eq_zero.mp hz)
  replace h10 : a10 = 0 := neg_eq_zero.mp h10
  simp only [M3.mul, M3.transpose, M3.id, M3.mk.injEq] at horth
  obtain ⟨e00, e01, e02, e10, e11, e12, e20, e21, e22⟩ := horth
  simp only [M3.det] at hdet
  subst h21 h20 h10
  have ha22 : a22 = 1 := by
    apply sq_one_of_nonneg _ h22
    linear_combination e22
  subst ha22
  have ha12 : a12 = 0 := by linear_combination e12
  subst ha12
  have ha11 : a11 = 1 := by
    apply sq_one_of_nonneg _ h11
    linear_combination e11
  subst ha11
  have ha01 : a01 = 0 := by linear_combination e01
  subst ha01
  have ha02 : a02 = 0 := by linear_combination e02
  subst ha02
  have ha00 : a00 = 1 := by linear_combination hdet
  subst ha00
  rfl

theorem V3.sq_nonneg (v : V3 ℚ) : 0 ≤ v.sq := by
  obtain ⟨vx, vy, vz⟩ := v
  simp only [V3.sq]
  nlinarith [mul_self_nonneg vx, mul_self_nonneg vy, mul_self_nonneg vz]

theorem V3.sq_eq_zero_iff (v : V3 ℚ) : v.sq = 0 ↔ v = V3.zero := by
  obtain ⟨vx, vy, vz⟩ := v
  simp only [V3.sq, V3.zero, V3.mk.injEq]
  constructor
  · intro h
    refine ⟨?_, ?_, ?_⟩ <;>
      nlinarith [mul_self_nonneg vx, mul_self_nonneg vy, mul_self_nonneg vz]
  · rintro ⟨ha, hb, hc⟩
    subst ha hb hc
    ring

theorem transNorm_eq_zero_iff (p : Pose3) : transNorm p = 0 ↔ p.t = V3.zero := by
  rw [transNorm, Real.sqrt_eq_zero']
  constructor
  · intro h
    have h2 : p.translation.sq ≤ 0 := by exact_mod_cast h
    have h3 : p.translation.sq = 0 := le_antisymm h2 (V3.sq_nonneg _)
    exact (V3.sq_eq_zero_iff _).mp h3
  · intro h
    have h3 : p.translation.sq = 0 := (V3.sq_eq_zero_iff _).mpr h
    rw [h3]
    norm_num

theorem transNorm_identity : transNorm Pose3.identity = 0 :=
  (transNorm_eq_zero_iff _).mpr rfl

theorem rotXyzNorm_of_R_id {p : Pose3} (h : p.R = M3.id) : rotXyzNorm p = 0 := by
  unfold rotXyzNorm Pose3.rotation
  rw [h, castM_id, xyzAngles_id]
  norm_num

theorem rotXyzNorm_identity : rotXyzNorm Pose3.identity = 0 :=
  rotXyzNorm_of_R_id rfl

theorem castM_mul (A B : M3 ℚ) : castM (A.mul B) = (castM A).mul (castM B) := by
  obtain ⟨a00, a01, a02, a10, a11, a12, a20, a21, a22⟩ := A
  obtain ⟨b00, b01, b02, b10, b11, b12, b20, b21, b22⟩ := B
  simp only [castM, M3.mul, M3.mk.injEq]
  refine ⟨?_, ?_, ?_, ?_, ?_, ?_, ?_, ?_, ?_⟩ <;> push_cast <;> ring

theorem castM_transpose (A : M3 ℚ) : castM A.transpose = (castM A).transpose := by
  obtain ⟨a00, a01, a02, a10, a11, a12, a20, a21, a22⟩ := A
  simp only [castM, M3.transpose]

theorem castM_det (A : M3 ℚ) : (castM A).det = ((A.det : ℚ) : ℝ) := by
  obtain ⟨a00, a01, a02, a10, a11, a12, a20, a21, a22⟩ := A
  simp only [castM, M3.det]
  push_cast
  ring

theorem castM_inj {A B : M3 ℚ} (h : castM A = castM B) : A = B := by
  obtain ⟨a00, a01, a02, a10, a11, a12, a20, a21, a22⟩ := A
  obtain ⟨b00, b01, b02, b10, b11, b12, b20, b21, b22⟩ := B
  simp only [castM, M3.mk.injEq, Rat.cast_injective.eq_iff] at h
  simp only [M3.mk.injEq]
  exact h

theorem castM_WFrot {R : M3 ℚ} (h : WFrot R) : WFrot (castM R) := by
  obtain ⟨h1, h2, h3⟩ := h
  refine ⟨?_, ?_, ?_⟩
  · rw [← castM_transpose, ← castM_mul, h1, castM_id]
  · rw [← castM_transpose, ← castM_mul, h2, castM_id]
  · rw [castM_det, h3, Rat.cast_one]

theorem sum3sq_sqrt_eq_zero {a b c : ℝ} (h : Real.sqrt (a ^ 2 + b ^ 2 + c ^ 2) = 0) :
    a = 0 ∧ b = 0 ∧ c = 0 := by
  have h2 : a ^ 2 + b ^ 2 + c ^ 2 ≤ 0 := Real.sqrt_eq_zero'.mp h
  refine ⟨?_, ?_, ?_⟩ <;> nlinarith [sq_nonneg a, sq_nonneg b, sq_nonneg c]

theorem rotXyzNorm_ne_zero {p : Pose3} (hWF : p.WF) (hne : p.R ≠ M3.id) :
    rotXyzNorm p ≠ 0 := by
  intro h0
  unfold rotXyzNorm Pose3.rotation at h0
  obtain ⟨hx, hy, hz⟩ := sum3sq_sqrt_eq_zero h0
  simp only [xyzAngles] at hx hy hz
  obtain ⟨horth, _, hdet⟩ := castM_WFrot hWF
  have hid : castM p.R = M3.id := eq_id_of_xyz_zero horth hdet hx hy hz
  rw [← castM_id] at hid
  exact hne (castM_inj hid)

theorem transNorm_ne_zero {p : Pose3} (hne : p.t ≠ V3.zero) : transNorm p ≠ 0 := by
  intro h0
  exact hne ((transNorm_eq_zero_iff p).mp h0)

theorem Pose3.WF.identity : Pose3.identity.WF := WFrot.id

theorem Pose3.WF.inverse {p : Pose3} (h : p.WF) : p.inverse.WF := by
  exact WFrot.transpose h

theorem Pose3.WF.compose {a b : Pose3} (ha : a.WF) (hb : b.WF) : (a.compose b).WF := by
  exact WFrot.mul ha hb

theorem Pose3.WF.between {a b : Pose3} (ha : a.WF) (hb : b.WF) : (a.between b).WF := by
  exact WFrot.mul (WFrot.transpose ha) hb

theorem prod3_eta {A B C : Type} {a : A} {b : B} (t : A × B × C)
    (h1 : t.1 = a) (h2 : t.2.1 = b) : t = (a, b, t.2.2) := by
  obtain ⟨x, y, z⟩ := t
  simp only at h1 h2
  rw [h1, h2]

theorem diagStep_reads (vals : List (Nat × Pose3)) (i : Nat) (f : Factor) :
    (diagStep vals i f).1 = vals ∧ (diagStep vals i f).2.1 = f := by
  unfold diagStep
  rcases hfe : factorErrorAccess vals f.keys with e | u
  · simp only [hfe]
    constructor <;> trivial
  · simp only [hfe]
    cases f with
    | other tag ks => constructor <;> trivial
    | betweenPose3 c =>
      rcases hcd : computeDiffs c vals with e2 | d
      · simp only [hcd]
        constructor <;> trivial
      · obtain ⟨d1, d2⟩ := d
        simp only [hcd]
        constructor <;> trivial

theorem diagStep_eta (vals : List (Nat × Pose3)) (i : Nat) (f : Factor) :
    diagStep vals i f = (vals, f, (diagStep vals i f).2.2) :=
  prod3_eta _ (diagStep_reads vals i f).1 (diagStep_reads vals i f).2

theorem factorErrorAccess_ok {vals : List (Nat × Pose3)} {ks : List Nat}
    (h : ∀ k ∈ ks, (atKey vals k).isSome = true) :
    factorErrorAccess vals ks = Except.ok () := by
  induction ks with
  | nil => rfl
  | cons k rest ih =>
    have hk : (atKey vals k).isSome = true := h k (List.mem_cons_self k rest)
    rcases hak : atKey vals k with _ | p
    · rw [hak] at hk
      simp at hk
    · simp only [factorErrorAccess, hak]
      exact ih fun k2 hk2 => h k2 (List.mem_cons_of_mem k hk2)

theorem computeDiffs_ok {c : Constraint} {vals : List (Nat × Pose3)} {p1 p2 : Pose3}
    (h1 : atKey vals c.key1 = some p1) (h2 : atKey vals c.key2 = some p2) :
    computeDiffs c vals =
      Except.ok (c.measured.between (p1.between p2), c.measured.between (p2.between p1)) := by
  unfold computeDiffs
  simp only [h1, h2]

theorem computeDiffs_error_key1 {c : Constraint} {vals : List (Nat × Pose3)}
    (h1 : atKey vals c.key1 = none) :
    computeDiffs c vals = Except.error (DiagError.MissingPoseKey c.key1) := by
  unfold computeDiffs
  simp only [h1]

theorem computeDiffs_error_key2 {c : Constraint} {vals : List (Nat × Pose3)} {p1 : Pose3}
    (h1 : atKey vals c.key1 = some p1) (h2 : atKey vals c.key2 = none) :
    computeDiffs c vals = Except.error (DiagError.MissingPoseKey c.key2) := by
  unfold computeDiffs
  simp only [h1, h2]

theorem factorErrorAccess_of_computeDiffs_error {c : Constraint}
    {vals : List (Nat × Pose3)} {e : DiagError}
    (h : computeDiffs c vals = Except.error e) :
    factorErrorAccess vals [c.key1, c.key2] = Except.error e := by
  rcases h1 : atKey vals c.key1 with _ | p1
  · rw [computeDiffs_error_key1 h1] at h
    have he : DiagError.MissingPoseKey c.key1 = e := Except.error.inj h
    simp only [factorErrorAccess, h1]
    rw [he]
  · rcases h2 : atKey vals c.key2 with _ | p2
    · rw [computeDiffs_error_key2 h1 h2] at h
      have he : DiagError.MissingPoseKey c.key2 = e := Except.error.inj h
      simp only [factorErrorAccess, h1, h2]
      rw [he]
    · rw [computeDiffs_ok h1 h2] at h
      exact absurd h (by simp)

theorem diagStep_error_aborts {vals : List (Nat × Pose3)} {i : Nat} {f : Factor}
    {e : DiagError} {rest : List Factor}
    (h : (diagStep vals i f).2.2 = Except.error e) :
    diagLoop vals i (f :: rest) = (vals, f :: rest, Except.error e) := by
  have hds := diagStep_eta vals i f
  rw [h] at hds
  simp only [diagLoop, hds]

theorem diagStep_between_error {vals : List (Nat × Pose3)} {i : Nat} {c : Constraint}
    {e : DiagError} (h : computeDiffs c vals = Except.error e) :
    (diagStep vals i (Factor.betweenPose3 c)).2.2 = Except.error e := by
  have hfe : factorErrorAccess vals (Factor.betweenPose3 c).keys = Except.error e := by
    simp only [Factor.keys]
    exact factorErrorAccess_of_computeDiffs_error h
  unfold diagStep
  simp only [hfe]

theorem diagStep_ok_of_keys {vals : List (Nat × Pose3)} {f : Factor} (i : Nat)
    (h : keysPresent vals f = true) :
    ∃ rep, diagStep vals i f = (vals, f, Except.ok rep) ∧ rep.idx = i ∧
      (f.isBetweenP3 = false → rep = Report.notApplicable i) := by
  have hall : ∀ k ∈ f.keys, (atKey vals k).isSome = true := by
    intro k hk
    exact List.all_eq_true.mp h k hk
  have hfe : factorErrorAccess vals f.keys = Except.ok () := factorErrorAccess_ok hall
  cases f with
  | other tag ks =>
    refine ⟨Report.notApplicable i, ?_, rfl, fun _ => rfl⟩
    unfold diagStep
    simp only [hfe]
  | betweenPose3 c =>
    have hk1 : (atKey vals c.key1).isSome = true := by
      apply hall
      simp [Factor.keys]
    have hk2 : (atKey vals c.key2).isSome = true := by
      apply hall
      simp [Factor.keys]
    obtain ⟨p1, hp1⟩ := Option.isSome_iff_exists.mp hk1
    obtain ⟨p2, hp2⟩ := Option.isSome_iff_exists.mp hk2
    refine ⟨Report.betweenReport i c.key1 c.key2
      (c.measured.between (p1.between p2)) (c.measured.between (p2.between p1)),
      ?_, rfl, fun hfalse => by simp [Factor.isBetweenP3] at hfalse⟩
    unfold diagStep
    simp only [hfe, computeDiffs_ok hp1 hp2]

theorem diagLoop_reads (vals : List (Nat × Pose3)) (i : Nat) (fs : List Factor) :
    (diagLoop vals i fs).1 = vals ∧ (diagLoop vals i fs).2.1 = fs := by
  induction fs generalizing i with
  | nil => exact ⟨rfl, rfl⟩
  | cons f rest ih =>
    have hds := diagStep_eta vals i f
    have hdl := prod3_eta _ (ih (i + 1)).1 (ih (i + 1)).2
    cases hr : (diagStep vals i f).2.2 with
    | error e =>
      rw [hr] at hds
      simp only [diagLoop, hds]
      constructor <;> trivial
    | ok rep =>
      rw [hr] at hds
      cases hout : (diagLoop vals (i + 1) rest).2.2 with
      | error e2 =>
        rw [hout] at hdl
        simp only [diagLoop, hds, hdl]
        constructor <;> trivial
      | ok rs =>
        rw [hout] at hdl
        simp only [diagLoop, hds, hdl]
        constructor <;> trivial

theorem diagLoop_ok_of_keys {vals : List (Nat × Pose3)} {fs : List Factor} (i : Nat)
    (h : ∀ f ∈ fs, keysPresent vals f = true) :
    ∃ rs : List Report, (diagLoop vals i fs).2.2 = Except.ok rs ∧
      rs.length = fs.length ∧
      ∀ j (hj : j < fs.length) (hj2 : j < rs.length),
        (rs.get ⟨j, hj2⟩).idx = i + j ∧
        ((fs.get ⟨j, hj⟩).isBetweenP3 = false →
          rs.get ⟨j, hj2⟩ = Report.notApplicable (i + j)) := by
  induction fs generalizing i with
  | nil =>
    refine ⟨[], rfl, rfl, ?_⟩
    intro j hj
    exact absurd hj (Nat.not_lt_zero j)
  | cons f rest ih =>
    obtain ⟨rep, hds, hidx, hna⟩ :=
      diagStep_ok_of_keys i (h f (List.mem_cons_self f rest))
    obtain ⟨rs, hout, hlen, hget⟩ :=
      ih (i + 1) fun f2 hf2 => h f2 (List.mem_cons_of_mem f hf2)
    have hdl := prod3_eta _ (diagLoop_reads vals (i + 1) rest).1
      (diagLoop_reads vals (i + 1) rest).2
    rw [hout] at hdl
    refine ⟨rep :: rs, ?_, by simp [hlen], ?_⟩
    · simp only [diagLoop, hds, hdl]
    · intro j hj hj2
      cases j with
      | zero =>
        refine ⟨by simpa using hidx, ?_⟩
        intro hbf
        simp only [List.get] at hbf ⊢
        rw [Nat.add_zero]
        exact hna hbf
      | succ j2 =>
        have hj3 : j2 < rest.length := Nat.lt_of_succ_lt_succ hj
        have hj4 : j2 < rs.length := Nat.lt_of_succ_lt_succ hj2
        obtain ⟨hg1, hg2⟩ := hget j2 hj3 hj4
        refine ⟨?_, ?_⟩
        · simp only [List.get]
          rw [hg1]
          omega
        · intro hbf
          simp only [List.get] at hbf ⊢
          rw [hg2 hbf]
          congr 1
          omega

theorem Pose3.between_inverse {p1 p2 : Pose3} (hw1 : p1.WF) :
    (p1.between p2).inverse = p2.between p1 := by
  have ha : p1.inverse.R.transpose.mul p1.inverse.R = M3.id := by
    show p1.R.transpose.transpose.mul p1.R.transpose = M3.id
    rw [M3.transpose_transpose]
    exact hw1.1
  unfold Pose3.between
  rw [Pose3.inverse_compose ha, Pose3.inverse_inverse hw1.1]

theorem transNorm_pTx (a : ℚ) : transNorm (pTx a) = Real.sqrt ((a * a : ℚ) : ℝ) := by
  unfold transNorm Pose3.translation pTx V3.sq
  norm_num

theorem Pose3.inverse_identity : Pose3.identity.inverse = Pose3.identity := by
  show Pose3.mk M3.id.transpose ((M3.id.transpose.mulV V3.zero).neg) = Pose3.identity
  rw [M3.transpose_id, M3.mulV_zero]
  norm_num [V3.neg, V3.zero, Pose3.identity]

theorem Pose3.id_between (p : Pose3) : Pose3.identity.between p = p := by
  unfold Pose3.between
  rw [Pose3.inverse_identity, Pose3.id_compose]

theorem pTx_WF (a : ℚ) : (pTx a).WF := WFrot.id

/-- Claim C1 (amended): when a constraint references a key absent from the
estimate set, `computeResidual` fails with the `MissingPoseKey` error naming
the absent key (`key1` checked first), and — because the exception is not
caught — a failing between-factor aborts the per-factor iteration: the
remaining factors are returned unprocessed rather than skipped-and-continued. -/
theorem claim1_missing_key_aborts :
    (∀ (c : Constraint) (vals : List (Nat × Pose3)),
      atKey vals c.key1 = none →
        computeResidual c vals = Except.error (DiagError.MissingPoseKey c.key1)) ∧
    (∀ (c : Constraint) (vals : List (Nat × Pose3)) (p1 : Pose3),
      atKey vals c.key1 = some p1 → atKey vals c.key2 = none →
        computeResidual c vals = Except.error (DiagError.MissingPoseKey c.key2)) ∧
    (∀ (vals : List (Nat × Pose3)) (i : Nat) (c : Constraint) (rest : List Factor)
      (e : DiagError), computeDiffs c vals = Except.error e →
        diagLoop vals i (Factor.betweenPose3 c :: rest) =
          (vals, Factor.betweenPose3 c :: rest, Except.error e)) := by
  refine ⟨?_, ?_, ?_⟩
  · intro c vals h1
    simp only [computeResidual, computeDiffs_error_key1 h1, Except.map]
  · intro c vals p1 h1 h2
    simp only [computeResidual, computeDiffs_error_key2 h1 h2, Except.map]
  · intro vals i c rest e h
    exact diagStep_error_aborts (diagStep_between_error h)

/-- Claim C1, witness: a concrete constraint whose `key2` (7) is absent fails
with `MissingPoseKey 7`, and a two-factor graph whose first factor is that
constraint aborts without processing the second factor. -/
theorem claim1_witness :
    atKey [((5 : Nat), Pose3.identity)] 5 = some Pose3.identity ∧
    atKey [((5 : Nat), Pose3.identity)] 7 = none ∧
    computeResidual ⟨5, 7, Pose3.identity⟩ [((5 : Nat), Pose3.identity)] =
      Except.error (DiagError.MissingPoseKey 7) ∧
    diagLoop [((5 : Nat), Pose3.identity)] 0
        [Factor.betweenPose3 ⟨5, 7, Pose3.identity⟩,
         Factor.betweenPose3 ⟨5, 5, Pose3.identity⟩] =
      ([((5 : Nat), Pose3.identity)],
       [Factor.betweenPose3 ⟨5, 7, Pose3.identity⟩,
        Factor.betweenPose3 ⟨5, 5, Pose3.identity⟩],
       Except.error (DiagError.MissingPoseKey 7)) :=
  ⟨rfl, rfl, claim1_missing_key_aborts.2.1 _ _ _ rfl rfl,
   claim1_missing_key_aborts.2.2 _ _ _ _ _ rfl⟩

/-- Claim C1, counterexample to the claim as stated: on a two-factor graph
whose first between-factor references the absent key 7, the loop's output is
an error — the iteration over the remaining constraints does not continue and
the failing constraint is not reported-as-skipped, contradicting the claim. -/
theorem claim1_counterexample :
    (diagLoop [((5 : Nat), Pose3.identity)] 0
        [Factor.betweenPose3 ⟨5, 7, Pose3.identity⟩,
         Factor.betweenPose3 ⟨5, 5, Pose3.identity⟩]).2.2 =
      Except.error (DiagError.MissingPoseKey 7) := by
  rfl

/-- Claim C2: if the measured relative pose equals `between(pose1, pose2)`
exactly, the forward difference is the identity transform and its translation
and rotation norms are zero. -/
theorem claim2_forward_identity (c : Constraint) (vals : List (Nat × Pose3))
    (p1 p2 : Pose3)
    (h1 : atKey vals c.key1 = some p1) (h2 : atKey vals c.key2 = some p2)
    (hw1 : p1.WF) (hw2 : p2.WF) (hm : c.measured = p1.between p2) :
    computeDiffs c vals =
      Except.ok (Pose3.identity, c.measured.between (p2.between p1)) ∧
    ∃ r, computeResidual c vals = Except.ok r ∧ r.transF = 0 ∧ r.rotF = 0 := by
  have hq : (p1.between p2).WF := Pose3.WF.between hw1 hw2
  have hdiff : c.measured.between (p1.between p2) = Pose3.identity := by
    rw [hm]
    exact Pose3.between_self hq.2.1
  have hcd := computeDiffs_ok h1 h2
  rw [hdiff] at hcd
  refine ⟨hcd, ⟨transNorm Pose3.identity, rotXyzNorm Pose3.identity,
    transNorm (c.measured.between (p2.between p1)),
    rotXyzNorm (c.measured.between (p2.between p1))⟩, ?_,
    transNorm_identity, rotXyzNorm_identity⟩
  simp only [computeResidual, hcd, Except.map]

/-- Claim C2, witness: `pose1 = identity`, `pose2 = translate(1,0,0)` and
`measured = between(pose1, pose2)` give a zero forward residual. -/
theorem claim2_witness :
    atKey [(0, Pose3.identity), (1, pTx 1)] 0 = some Pose3.identity ∧
    atKey [(0, Pose3.identity), (1, pTx 1)] 1 = some (pTx 1) ∧
    Pose3.identity.WF ∧ (pTx 1).WF ∧
    pTx 1 = Pose3.identity.between (pTx 1) ∧
    (computeDiffs ⟨0, 1, pTx 1⟩ [(0, Pose3.identity), (1, pTx 1)] =
      Except.ok (Pose3.identity, (pTx 1).between ((pTx 1).between Pose3.identity)) ∧
     ∃ r, computeResidual ⟨0, 1, pTx 1⟩ [(0, Pose3.identity), (1, pTx 1)] =
        Except.ok r ∧ r.transF = 0 ∧ r.rotF = 0) :=
  ⟨rfl, rfl, Pose3.WF.identity, pTx_WF 1, (Pose3.id_between (pTx 1)).symm,
   claim2_forward_identity ⟨0, 1, pTx 1⟩ [(0, Pose3.identity), (1, pTx 1)]
     Pose3.identity (pTx 1) rfl rfl Pose3.WF.identity (pTx_WF 1)
     (Pose3.id_between (pTx 1)).symm⟩

/-- Claim C3 (amended): provided every factor of the graph references only
keys present in the estimate set, the diagnostic visits every factor exactly
once in their original order (report `j` carries index `i + j`), succeeds,
and reports every non-between factor as not applicable without failing or
stopping.  Without that proviso a missing key aborts the pass. -/
theorem claim3_order_and_skip (vals : List (Nat × Pose3)) (fs : List Factor)
    (i : Nat) (h : ∀ f ∈ fs, keysPresent vals f = true) :
    ∃ rs : List Report, (diagLoop vals i fs).2.2 = Except.ok rs ∧
      rs.length = fs.length ∧
      ∀ j (hj : j < fs.length) (hj2 : j < rs.length),
        (rs.get ⟨j, hj2⟩).idx = i + j ∧
        ((fs.get ⟨j, hj⟩).isBetweenP3 = false →
          rs.get ⟨j, hj2⟩ = Report.notApplicable (i + j)) :=
  diagLoop_ok_of_keys i h

/-- Claim C3, witness: a two-factor graph (one non-between factor, one
between-factor) with all keys present is fully visited in order and the
non-between factor is reported as not applicable. -/
theorem claim3_witness :
    (∀ f ∈ [Factor.other 3 [0], Factor.betweenPose3 ⟨0, 1, pTx 1⟩],
      keysPresent [(0, Pose3.identity), (1, pTx 1)] f = true) ∧
    ∃ rs : List Report,
      (diagLoop [(0, Pose3.identity), (1, pTx 1)] 0
        [Factor.other 3 [0], Factor.betweenPose3 ⟨0, 1, pTx 1⟩]).2.2 =
          Except.ok rs ∧
      rs.length = [Factor.other 3 [0], Factor.betweenPose3 ⟨0, 1, pTx 1⟩].length ∧
      ∀ j (hj : j < [Factor.other 3 [0], Factor.betweenPose3 ⟨0, 1, pTx 1⟩].length)
        (hj2 : j < rs.length),
        (rs.get ⟨j, hj2⟩).idx = 0 + j ∧
        (([Factor.other 3 [0], Factor.betweenPose3 ⟨0, 1, pTx 1⟩].get
            ⟨j, hj⟩).isBetweenP3 = false →
          rs.get ⟨j, hj2⟩ = Report.notApplicable (0 + j)) :=
  ⟨by decide,
   claim3_order_and_skip [(0, Pose3.identity), (1, pTx 1)]
     [Factor.other 3 [0], Factor.betweenPose3 ⟨0, 1, pTx 1⟩] 0 (by decide)⟩

/-- Claim C3, counterexample to the claim as stated: a graph whose factor 0 is
a between-factor referencing the absent key 9 makes the pass fail before
visiting factor 1 (a non-between factor), so not every factor is visited and
reported. -/
theorem claim3_counterexample :
    (diagLoop [((0 : Nat), Pose3.identity)] 0
        [Factor.betweenPose3 ⟨0, 9, Pose3.identity⟩, Factor.other 3 []]).2.2 =
      Except.error (DiagError.MissingPoseKey 9) := by
  rfl

/-- Claim C4: swapping which pose is first and which is second in a constraint
(keeping the measured transform fixed) swaps the forward and backward residual
pairs exactly. -/
theorem claim4_swap (c : Constraint) (vals : List (Nat × Pose3)) (p1 p2 : Pose3)
    (h1 : atKey vals c.key1 = some p1) (h2 : atKey vals c.key2 = some p2) :
    computeResidual ⟨c.key2, c.key1, c.measured⟩ vals =
      (computeResidual c vals).map Residual.swap := by
  have hcd1 := computeDiffs_ok h1 h2
  have hcd2 : computeDiffs ⟨c.key2, c.key1, c.measured⟩ vals =
      Except.ok (c.measured.between (p2.between p1),
        c.measured.between (p1.between p2)) :=
    computeDiffs_ok (c := ⟨c.key2, c.key1, c.measured⟩) h2 h1
  simp only [computeResidual, hcd1, hcd2, Except.map, Residual.swap]

/-- Claim C4, witness: swapping the endpoint keys of a concrete constraint
swaps the forward and backward residual pairs. -/
theorem claim4_witness :
    atKey [(0, Pose3.identity), (1, pTx 1)] 0 = some Pose3.identity ∧
    atKey [(0, Pose3.identity), (1, pTx 1)] 1 = some (pTx 1) ∧
    computeResidual ⟨1, 0, pTx 3⟩ [(0, Pose3.identity), (1, pTx 1)] =
      (computeResidual ⟨0, 1, pTx 3⟩ [(0, Pose3.identity), (1, pTx 1)]).map
        Residual.swap :=
  ⟨rfl, rfl,
   claim4_swap ⟨0, 1, pTx 3⟩ [(0, Pose3.identity), (1, pTx 1)]
     Pose3.identity (pTx 1) rfl rfl⟩

/-- Claim C5: the backward difference is not in general the group inverse of
the forward difference — witnessed by explicit well-formed poses — so it
carries independent information. -/
theorem claim5_backward_not_inverse :
    ∃ p1 p2 m : Pose3, p1.WF ∧ p2.WF ∧ m.WF ∧
      m.between (p2.between p1) ≠ (m.between (p1.between p2)).inverse := by
  refine ⟨Pose3.identity, Pose3.identity, pTx 1,
    Pose3.WF.identity, Pose3.WF.identity, pTx_WF 1, ?_⟩
  norm_num [Pose3.between, Pose3.inverse, Pose3.compose, Pose3.identity, pTx,
    M3.mul, M3.mulV, M3.transpose, M3.id, V3.add, V3.neg, V3.zero,
    Pose3.mk.injEq, V3.mk.injEq, M3.mk.injEq]

/-- Claim C6: the diagnostic loop never mutates the pose estimate set or the
factors: both are returned unchanged whatever the input graph. -/
theorem claim6_read_only (vals : List (Nat × Pose3)) (i : Nat) (fs : List Factor) :
    (diagLoop vals i fs).1 = vals ∧ (diagLoop vals i fs).2.1 = fs :=
  diagLoop_reads vals i fs

/-- Claim C7: with `pose1 = identity` and `pose2 = translate(1,0,0)`, a
measured transform `translate(1,0,0)` yields forward translation and rotation
norms zero, and a measured transform `translate(2,0,0)` yields forward
translation norm exactly 1 (hence within any tolerance of 1.0). -/
theorem claim7_end_to_end :
    (∃ r, computeResidual ⟨0, 1, pTx 1⟩ [(0, Pose3.identity), (1, pTx 1)] =
        Except.ok r ∧ r.transF = 0 ∧ r.rotF = 0) ∧
    (∃ r, computeResidual ⟨0, 1, pTx 2⟩ [(0, Pose3.identity), (1, pTx 1)] =
        Except.ok r ∧ r.transF = 1) := by
  constructor
  · have hcd : computeDiffs ⟨0, 1, pTx 1⟩ [(0, Pose3.identity), (1, pTx 1)] =
        Except.ok (Pose3.identity, pTx (-2)) := by
      norm_num [computeDiffs, atKey, Pose3.between, Pose3.inverse, Pose3.compose,
        Pose3.identity, pTx, M3.mul, M3.mulV, M3.transpose, M3.id, V3.add, V3.neg,
        V3.zero, Pose3.mk.injEq, V3.mk.injEq, M3.mk.injEq]
    refine ⟨⟨transNorm Pose3.identity, rotXyzNorm Pose3.identity,
      transNorm (pTx (-2)), rotXyzNorm (pTx (-2))⟩, ?_,
      transNorm_identity, rotXyzNorm_identity⟩
    simp only [computeResidual, hcd, Except.map]
  · have hcd : computeDiffs ⟨0, 1, pTx 2⟩ [(0, Pose3.identity), (1, pTx 1)] =
        Except.ok (pTx (-1), pTx (-3)) := by
      norm_num [computeDiffs, atKey, Pose3.between, Pose3.inverse, Pose3.compose,
        Pose3.identity, pTx, M3.mul, M3.mulV, M3.transpose, M3.id, V3.add, V3.neg,
        V3.zero, Pose3.mk.injEq, V3.mk.injEq, M3.mk.injEq]
    refine ⟨⟨transNorm (pTx (-1)), rotXyzNorm (pTx (-1)),
      transNorm (pTx (-3)), rotXyzNorm (pTx (-3))⟩, ?_, ?_⟩
    · simp only [computeResidual, hcd, Except.map]
    · rw [transNorm_pTx]
      norm_num

/-- Claim C8: `computeResidual` is deterministic — in this pure embedding two
invocations on the same constraint and estimate set are definitionally the
same value. -/
theorem claim8_deterministic (c : Constraint) (vals : List (Nat × Pose3)) :
    computeResidual c vals = computeResidual c vals := rfl

/-- Claim C9: when the estimates satisfy the constraint exactly
(`measured = between(pose1, pose2)`), the backward difference equals
`measured⁻¹ · measured⁻¹`, and whenever `measured · measured` is not the
identity the backward residual pair is nonzero. -/
theorem claim9_backward_residual (c : Constraint) (vals : List (Nat × Pose3))
    (p1 p2 : Pose3)
    (h1 : atKey vals c.key1 = some p1) (h2 : atKey vals c.key2 = some p2)
    (hw1 : p1.WF) (hw2 : p2.WF) (hm : c.measured = p1.between p2) :
    computeDiffs c vals =
      Except.ok (c.measured.between (p1.between p2),
        c.measured.inverse.compose c.measured.inverse) ∧
    (c.measured.compose c.measured ≠ Pose3.identity →
      transNorm (c.measured.inverse.compose c.measured.inverse) ≠ 0 ∨
      rotXyzNorm (c.measured.inverse.compose c.measured.inverse) ≠ 0) := by
  have hwm : c.measured.WF := by
    rw [hm]
    exact Pose3.WF.between hw1 hw2
  have hq : p2.between p1 = c.measured.inverse := by
    rw [hm, Pose3.between_inverse hw1]
  constructor
  · have hcd := computeDiffs_ok h1 h2
    rw [hq] at hcd
    exact hcd
  · intro hne
    have hD_ne : c.measured.inverse.compose c.measured.inverse ≠ Pose3.identity := by
      intro hDe
      apply hne
      have hchain : c.measured.compose
          ((c.measured.inverse.compose c.measured.inverse).compose c.measured) =
          Pose3.identity := by
        rw [Pose3.compose_assoc, Pose3.inverse_compose_self hwm.2.1,
          Pose3.compose_id, Pose3.compose_inverse_self hwm.1]
      rw [hDe, Pose3.id_compose] at hchain
      exact hchain
    have hwD : (c.measured.inverse.compose c.measured.inverse).WF :=
      Pose3.WF.compose (Pose3.WF.inverse hwm) (Pose3.WF.inverse hwm)
    by_cases ht : (c.measured.inverse.compose c.measured.inverse).t = V3.zero
    · refine Or.inr (rotXyzNorm_ne_zero hwD ?_)
      intro hR
      apply hD_ne
      show c.measured.inverse.compose c.measured.inverse = Pose3.mk M3.id V3.zero
      rw [← hR, ← ht]
    · exact Or.inl (transNorm_ne_zero ht)

/-- Claim C9, witness: with `pose1 = identity`, `pose2 = translate(1,0,0)` and
`measured = between(pose1, pose2) = translate(1,0,0)`, the backward difference
is `translate(-2,0,0)` and its residual pair is nonzero. -/
theorem claim9_witness :
    atKey [(0, Pose3.identity), (1, pTx 1)] 0 = some Pose3.identity ∧
    atKey [(0, Pose3.identity), (1, pTx 1)] 1 = some (pTx 1) ∧
    Pose3.identity.WF ∧ (pTx 1).WF ∧
    pTx 1 = Pose3.identity.between (pTx 1) ∧
    (pTx 1).compose (pTx 1) ≠ Pose3.identity ∧
    (computeDiffs ⟨0, 1, pTx 1⟩ [(0, Pose3.identity), (1, pTx 1)] =
      Except.ok ((pTx 1).between (Pose3.identity.between (pTx 1)),
        (pTx 1).inverse.compose (pTx 1).inverse) ∧
     ((pTx 1).compose (pTx 1) ≠ Pose3.identity →
      transNorm ((pTx 1).inverse.compose (pTx 1).inverse) ≠ 0 ∨
      rotXyzNorm ((pTx 1).inverse.compose (pTx 1).inverse) ≠ 0)) :=
  ⟨rfl, rfl, Pose3.WF.identity, pTx_WF 1, (Pose3.id_between (pTx 1)).symm,
   by
     norm_num [Pose3.compose, Pose3.identity, pTx, M3.mul, M3.mulV, M3.id,
       V3.add, V3.zero, Pose3.mk.injEq, V3.mk.injEq, M3.mk.injEq],
   claim9_backward_residual ⟨0, 1, pTx 1⟩ [(0, Pose3.identity), (1, pTx 1)]
     Pose3.identity (pTx 1) rfl rfl Pose3.WF.identity (pTx_WF 1)
     (Pose3.id_between (pTx 1)).symm⟩

/-- Claim C10: with no command-line argument the program uses the hard-coded
path `data/2d/2d-1.g2o`; with an argument, `argv[1]` is used verbatim; and the
`is3D` flag passed to the loader is always `true`, independent of the input. -/
theorem claim10_argv :
    (∀ prog : String, filePathOfArgv [prog] = "data/2d/2d-1.g2o") ∧
    filePathOfArgv [] = "data/2d/2d-1.g2o" ∧
    (∀ (prog a : String) (rest : List String),
      filePathOfArgv (prog :: a :: rest) = a) ∧
    (∀ argv : List String, (readG2oCall argv).2 = true) :=
  ⟨fun _ => rfl, rfl, fun _ _ _ => rfl, fun _ => rfl⟩

end G2oDiag
